import Mathlib

/-!
Verification of the DTED decoding engine (`src/parsers.rs` of the `dted2`
crate) against its specification.

The parsers are shallowly embedded: a byte slice is a `List Nat` (each
element a byte value), and a nom `IResult<&[u8], T>` becomes
`Except NErr (List Nat × T)`, where `NErr` mirrors `nom::Err` (the
`Incomplete` variant is omitted: all parsers used are from
`nom::*::complete`, which never produce it).  Machine integers are `Nat`
with explicit `% 2^w` at the operations where Rust release-mode wrapping
can occur.  Fallible decoding returns `Except`/`Option` values.
-/

namespace Dted2

/-- Error kinds produced by the nom combinators used in `parsers.rs`:
`ErrorKind::Tag` (from `tag`), `ErrorKind::Eof` (from `complete::take` /
`complete::be_u16`), and `ErrorKind::MapRes` (from `map_res`, which
replaces the external error by `MapRes`). -/
inductive ErrKind where
  | tagK : ErrKind
  | eofK : ErrKind
  | mapResK : ErrKind
deriving DecidableEq, Repr

/-- `nom::error::Error<&[u8]>`: the input position at the failure plus the
error kind. -/
structure PError where
  input : List Nat
  code : ErrKind
deriving DecidableEq, Repr

/-- `nom::Err`: a recoverable `Error` or an unrecoverable `Failure`.
(`Incomplete` cannot arise from the `complete` parsers used here.) -/
inductive NErr where
  | error : PError → NErr
  | failure : PError → NErr
deriving DecidableEq, Repr

/-- `IResult<&[u8], α>` over the byte-list model. -/
abbrev IRes (α : Type) : Type := Except NErr (List Nat × α)

/-- Sequencing of parsers, as done by `?` / `tuple` in `parsers.rs`:
on success continue with the remaining input and the value, on error
propagate the error unchanged. -/
def pbind {α β : Type} (r : IRes α) (f : List Nat → α → IRes β) : IRes β :=
  match r with
  | Except.ok (i, a) => f i a
  | Except.error e => Except.error e

/-- `nom::bytes::complete::tag t`: succeeds returning the matched bytes iff
`t` is a prefix of the input; otherwise `Err::Error` with
`ErrorKind::Tag` at the original input. -/
def tagP (t : List Nat) (input : List Nat) : IRes (List Nat) :=
  if t.isPrefixOf input then Except.ok (input.drop t.length, t)
  else Except.error (NErr.error ⟨input, ErrKind.tagK⟩)

/-- `nom::bytes::complete::take n`: consumes exactly `n` bytes, failing
with `Err::Error`/`ErrorKind::Eof` when fewer remain. -/
def takeP (n : Nat) (input : List Nat) : IRes (List Nat) :=
  if n ≤ input.length then Except.ok (input.drop n, input.take n)
  else Except.error (NErr.error ⟨input, ErrKind.eofK⟩)

/-- `nom::number::complete::be_u16`: two bytes, big-endian. -/
def beU16 (input : List Nat) : IRes Nat :=
  match input with
  | b0 :: b1 :: rest => Except.ok (rest, b0 * 256 + b1)
  | _ => Except.error (NErr.error ⟨input, ErrKind.eofK⟩)

/-- `to_uint::<u32>` (src/parsers.rs:48-56): folds the bytes by
`acc * 10 + (b - 0x30)`, with no digit validation (the digit assertion at
line 53 is commented out).  `*b - 0x30` is `u8` arithmetic and
`acc * 10 + …` is `u32` arithmetic; both wrap (release-mode semantics),
hence the `% 256` and `% 2^32`.  The final `U::from` of the `u32`
accumulator is the identity embedding for `U = u32` (the only
instantiation reached from the claims), so it always returns `some`. -/
def to_uint (input : List Nat) : Option Nat :=
  some (input.foldl (fun acc b => (acc * 10 + (b + 256 - 0x30) % 256) % 4294967296) 0)

/-- `uint_parser::<u32> count` (src/parsers.rs:75-84):
`map_res(take(count), |bytes| to_uint(bytes).ok_or(Digit-error))`.
On a `none` from `to_uint`, `map_res` records `ErrorKind::MapRes` at the
original input (nom's `FromExternalError` for `nom::error::Error` discards
the external error). -/
def uintParser (count : Nat) (input : List Nat) : IRes Nat :=
  match takeP count input with
  | Except.ok (rest, bytes) =>
    match to_uint bytes with
    | some v => Except.ok (rest, v)
    | none => Except.error (NErr.error ⟨input, ErrKind.mapResK⟩)
  | Except.error e => Except.error e

/-- `uint_parser_with_default` (src/parsers.rs:106-114). -/
def uintParserWithDefault (count dflt : Nat) (input : List Nat) : IRes Nat :=
  match count with
  | 0 => Except.ok (input, dflt)
  | _ + 1 => uintParser count input

/-- `to_i16` (src/parsers.rs:278-282): signed-magnitude decode of a 16-bit
pattern.  `v = (x & 0x7FFF) as i16` and `s = ((x & 0x8000) >> 15) as i16`
are exact (both masked values are below `2^15`, within `i16` range), and
`(1 - (s << 1)) * v` never overflows `i16` (its magnitude is at most
`0x7FFF`), so `Int` arithmetic is faithful. -/
def to_i16 (x : Nat) : Int :=
  let v : Int := ((x &&& 0x7FFF : Nat) : Int)
  let s : Int := (((x &&& 0x8000) >>> 15 : Nat) : Int)
  (1 - 2 * s) * v

/-- Modelled from the spec: the signed-magnitude re-encoding of §8
("re-encoding (magnitude + sign bit)") — the sign bit (`0x8000`) is set
iff the value is negative, and bits 0-14 hold the absolute value.  No
encoder exists in `src/parsers.rs`; this definition follows the spec's
words for the round-trip property. -/
def encodeSM (v : Int) : Nat :=
  if v < 0 then 0x8000 + (-v).toNat else v.toNat

/-- `signed_mag_parser` (src/parsers.rs:305-311): take 2 bytes, assemble a
big-endian `u16` with `u16::from_be_bytes`, and convert via `to_i16`; the
`map_res` closure always returns `Ok`, so no `MapRes` error can arise. -/
def signedMagParser (input : List Nat) : IRes Int :=
  match takeP 2 input with
  | Except.ok (rest, bytes) =>
    Except.ok (rest, to_i16 (bytes.getD 0 0 * 256 + bytes.getD 1 0))
  | Except.error e => Except.error e

/-! ### Helper lemmas -/

theorem isPrefixOf_exists {t l : List Nat} (h : t.isPrefixOf l = true) :
    ∃ r, l = t ++ r := by
  induction t generalizing l with
  | nil => exact ⟨l, rfl⟩
  | cons a t ih =>
    cases l with
    | nil => simp [List.isPrefixOf] at h
    | cons b l =>
      simp only [List.isPrefixOf, Bool.and_eq_true, beq_iff_eq] at h
      obtain ⟨r, hr⟩ := ih h.2
      exact ⟨r, by simp [h.1, hr]⟩

theorem isPrefixOf_append (t r : List Nat) : t.isPrefixOf (t ++ r) = true := by
  induction t with
  | nil => simp [List.isPrefixOf]
  | cons a t ih => simp [List.isPrefixOf, ih]

theorem tagP_append (t r : List Nat) : tagP t (t ++ r) = Except.ok (r, t) := by
  simp [tagP, isPrefixOf_append t r]

theorem tagP_mismatch {t input : List Nat} (h : ¬ t.isPrefixOf input = true) :
    tagP t input = Except.error (NErr.error ⟨input, ErrKind.tagK⟩) := by
  simp [tagP, h]

theorem takeP_append {a : List Nat} {n : Nat} (r : List Nat) (h : a.length = n) :
    takeP n (a ++ r) = Except.ok (r, a) := by
  subst h
  simp [takeP, List.take_left, List.drop_left, Nat.le_add_right]

theorem takeP_of_le {n : Nat} {input : List Nat} (h : n ≤ input.length) :
    takeP n input = Except.ok (input.drop n, input.take n) := by
  simp [takeP, h]

/-- The exact decimal value of a digit string, with no wrapping. -/
def decVal (l : List Nat) : Nat :=
  l.foldl (fun acc b => acc * 10 + (b - 48)) 0

/-- The bytes of `l` are all ASCII decimal digits. -/
def IsDigits (l : List Nat) : Prop :=
  ∀ b ∈ l, 48 ≤ b ∧ b ≤ 57

instance (l : List Nat) : Decidable (IsDigits l) := by
  unfold IsDigits
  infer_instance

theorem fold_digits (l : List Nat) : ∀ acc : Nat, IsDigits l →
    (acc + 1) * 10 ^ l.length ≤ 4294967296 →
    l.foldl (fun acc b => (acc * 10 + (b + 256 - 0x30) % 256) % 4294967296) acc =
      l.foldl (fun acc b => acc * 10 + (b - 48)) acc ∧
    l.foldl (fun acc b => acc * 10 + (b - 48)) acc + 1 ≤ (acc + 1) * 10 ^ l.length := by
  induction l with
  | nil => intro acc _ _; simp
  | cons b l ih =>
    intro acc hd hb
    obtain ⟨hb1, hb2⟩ := hd b (List.mem_cons_self b l)
    have hdig : (b + 256 - 0x30) % 256 = b - 48 := by omega
    have hstep : acc * 10 + (b - 48) + 1 ≤ (acc + 1) * 10 := by omega
    have hlen : (acc * 10 + (b - 48) + 1) * 10 ^ l.length ≤ 4294967296 := by
      calc (acc * 10 + (b - 48) + 1) * 10 ^ l.length
          ≤ ((acc + 1) * 10) * 10 ^ l.length :=
            Nat.mul_le_mul_right _ hstep
        _ = (acc + 1) * 10 ^ (b :: l).length := by
            simp [List.length_cons, pow_succ]; ring
        _ ≤ 4294967296 := hb
    have hmod : (acc * 10 + (b + 256 - 0x30) % 256) % 4294967296 =
        acc * 10 + (b - 48) := by
      rw [hdig]
      apply Nat.mod_eq_of_lt
      have h10 : 1 ≤ 10 ^ l.length := Nat.one_le_pow _ _ (by omega)
      calc acc * 10 + (b - 48) < acc * 10 + (b - 48) + 1 := by omega
        _ ≤ (acc * 10 + (b - 48) + 1) * 10 ^ l.length := Nat.le_mul_of_pos_right _ (by omega)
        _ ≤ 4294967296 := hlen
    have ihs := ih (acc * 10 + (b - 48)) (fun x hx => hd x (List.mem_cons_of_mem b hx)) hlen
    constructor
    · simp only [List.foldl_cons, hmod]
      exact ihs.1
    · simp only [List.foldl_cons]
      calc l.foldl (fun acc b => acc * 10 + (b - 48)) (acc * 10 + (b - 48)) + 1
          ≤ (acc * 10 + (b - 48) + 1) * 10 ^ l.length := ihs.2
        _ ≤ ((acc + 1) * 10) * 10 ^ l.length := Nat.mul_le_mul_right _ hstep
        _ = (acc + 1) * 10 ^ (b :: l).length := by
            simp [List.length_cons, pow_succ]; ring

theorem to_uint_digits {l : List Nat} (hd : IsDigits l) (hl : l.length ≤ 9) :
    to_uint l = some (decVal l) := by
  have hb : (0 + 1) * 10 ^ l.length ≤ 4294967296 := by
    calc (0 + 1) * 10 ^ l.length ≤ 1 * 10 ^ 9 := by
          apply Nat.mul_le_mul_left
          exact Nat.pow_le_pow_right (by omega) hl
      _ ≤ 4294967296 := by norm_num
  exact congrArg some (fold_digits l 0 hd hb).1

theorem decVal_lt (l : List Nat) (hd : IsDigits l) (hl : l.length ≤ 9) :
    decVal l < 10 ^ l.length := by
  have hb : (0 + 1) * 10 ^ l.length ≤ 4294967296 := by
    calc (0 + 1) * 10 ^ l.length ≤ 1 * 10 ^ 9 := by
          apply Nat.mul_le_mul_left
          exact Nat.pow_le_pow_right (by omega) hl
      _ ≤ 4294967296 := by norm_num
  have := (fold_digits l 0 hd hb).2
  simpa [decVal] using this

theorem uintParser_digits {a : List Nat} {n : Nat} (r : List Nat)
    (hlen : a.length = n) (hd : IsDigits a) (hn : n ≤ 9) :
    uintParser n (a ++ r) = Except.ok (r, decVal a) := by
  unfold uintParser
  rw [takeP_append r hlen]
  simp [to_uint_digits hd (hlen ▸ hn)]

theorem to_i16_eq (x : Nat) (hx : x < 65536) :
    to_i16 x = (if 32768 ≤ x then (-1 : Int) else 1) * ((x % 32768 : Nat) : Int) := by
  have h1 : x &&& 0x7FFF = x % 32768 := by
    have := Nat.and_pow_two_sub_one_eq_mod x 15
    norm_num at this
    simpa using this
  have h2 : (x &&& 0x8000) >>> 15 = if 32768 ≤ x then 1 else 0 := by
    have ha : x &&& 0x8000 = (x.testBit 15).toNat * 2 ^ 15 := by
      have := Nat.and_two_pow x 15
      norm_num at this
      simpa using this
    have ht : x.testBit 15 = decide (x / 2 ^ 15 % 2 = 1) := Nat.testBit_to_div_mod
    have hq : x / 2 ^ 15 % 2 = (if 32768 ≤ x then 1 else 0) := by
      have : x / 2 ^ 15 = if 32768 ≤ x then 1 else 0 := by
        split <;> norm_num <;> omega
      rw [this]
      split <;> norm_num
    rw [ha, ht, hq, Nat.shiftRight_eq_div_pow]
    split <;> simp
  rw [to_i16, h1, h2]
  split
  · push_cast
    ring
  · push_cast
    ring

theorem to_i16_bounds (x : Nat) (hx : x < 65536) :
    -32767 ≤ to_i16 x ∧ to_i16 x ≤ 32767 := by
  rw [to_i16_eq x hx]
  have h : x % 32768 < 32768 := Nat.mod_lt _ (by omega)
  split <;> constructor <;> push_cast <;> omega

/-! ### Claims C1, C2, C5, C9 -/

/-- Claim C1 (code_bug evidence): the fixed-width unsigned integer decoder
does NOT fail on non-digit bytes: on the three bytes `"AAA"` (0x41 each),
`uint_parser::<u32>(3)` succeeds and returns the arithmetic garbage value
1887 instead of the format (digit) decode error the spec requires. -/
theorem c1_nondigit_accepted :
    uintParser 3 [65, 65, 65] = Except.ok ([], 1887) := rfl

/-- Claim C2: `to_i16` decodes a 16-bit pattern as signed-magnitude — the
magnitude in bits 0-14, negated exactly when bit 15 is set — the result
always lies in `[-32767, 32767]`, the listed sample values hold
(`0x8003 ↦ -3`, `0 ↦ 0`, `0x8000 ↦ 0`, `0xFFFF ↦ -32767`), and
`signed_mag_parser` consumes two bytes big-endian and applies `to_i16`. -/
theorem c2_signed_magnitude :
    (∀ x : Nat, x < 65536 →
      to_i16 x = (if 32768 ≤ x then (-1 : Int) else 1) * ((x % 32768 : Nat) : Int) ∧
      -32767 ≤ to_i16 x ∧ to_i16 x ≤ 32767) ∧
    to_i16 0x8003 = -3 ∧ to_i16 0 = 0 ∧ to_i16 0x8000 = 0 ∧
    to_i16 0xFFFF = -32767 ∧
    ∀ b0 b1 : Nat, ∀ rest : List Nat,
      signedMagParser (b0 :: b1 :: rest) = Except.ok (rest, to_i16 (b0 * 256 + b1)) := by
  refine ⟨fun x hx => ⟨to_i16_eq x hx, to_i16_bounds x hx⟩, by decide, by decide,
    by decide, by decide, fun b0 b1 rest => ?_⟩
  have h2 : (2 : Nat) ≤ (b0 :: b1 :: rest).length := by simp
  simp [signedMagParser, takeP, h2]

/-- Witness for C2 at the concrete pattern `0x8003`. -/
theorem c2_signed_magnitude_witness :
    (0x8003 : Nat) < 65536 ∧
      (to_i16 0x8003 =
        (if 32768 ≤ (0x8003 : Nat) then (-1 : Int) else 1) * (((0x8003 : Nat) % 32768 : Nat) : Int) ∧
      -32767 ≤ to_i16 0x8003 ∧ to_i16 0x8003 ≤ 32767) :=
  ⟨by decide, c2_signed_magnitude.1 0x8003 (by decide)⟩

/-- Claim C5: signed-magnitude round-trip — for every 16-bit pattern other
than negative zero `0x8000`, re-encoding the decoded value (sign bit from
the sign, bits 0-14 from the absolute value) reproduces the pattern;
`0x8000` and `0x0000` both decode to `0`, and `0` encodes canonically to
`0x0000`. -/
theorem c5_roundtrip :
    ∀ x : Nat, x < 65536 →
      (x ≠ 0x8000 → encodeSM (to_i16 x) = x) ∧
      to_i16 0x8000 = 0 ∧ to_i16 0 = 0 ∧ encodeSM 0 = 0 := by
  intro x hx
  refine ⟨fun hne => ?_, by decide, by decide, by decide⟩
  rw [to_i16_eq x hx]
  by_cases h : 32768 ≤ x
  · have hm : 0 < x % 32768 := by omega
    rw [if_pos h]
    have hv : ((-1 : Int)) * ((x % 32768 : Nat) : Int) = -((x % 32768 : Nat) : Int) := by
      ring
    rw [hv, encodeSM]
    have hneg : (-((x % 32768 : Nat) : Int)) < 0 := by
      have : (0 : Int) < ((x % 32768 : Nat) : Int) := by exact_mod_cast hm
      omega
    rw [if_pos hneg, neg_neg, Int.toNat_natCast]
    omega
  · have hm : x % 32768 = x := by omega
    rw [if_neg h, one_mul, hm, encodeSM]
    rw [if_neg (by omega : ¬ ((x : Nat) : Int) < 0)]
    exact Int.toNat_natCast x

/-- Witness for C5 at the concrete pattern `0xFFFF`. -/
theorem c5_roundtrip_witness :
    (0xFFFF : Nat) < 65536 ∧ ((0xFFFF : Nat) ≠ 0x8000 → encodeSM (to_i16 0xFFFF) = 0xFFFF) :=
  ⟨by decide, (c5_roundtrip 0xFFFF (by decide)).1⟩

/-- Claim C9: for the target type `u32`, `uint_parser(count)` succeeds
whenever at least `count` bytes remain, regardless of byte content, and
`to_uint` never returns `None` — the `Digit` error branch is unreachable. -/
theorem c9_uint_total :
    (∀ (count : Nat) (input : List Nat), count ≤ input.length →
      ∃ v, uintParser count input = Except.ok (input.drop count, v)) ∧
    ∀ bytes : List Nat, ∃ v, to_uint bytes = some v := by
  constructor
  · intro count input h
    refine ⟨(input.take count).foldl
      (fun acc b => (acc * 10 + (b + 256 - 0x30) % 256) % 4294967296) 0, ?_⟩
    unfold uintParser
    rw [takeP_of_le h]
    rfl
  · intro bytes
    exact ⟨_, rfl⟩

/-- Witness for C9: two non-digit bytes (`0x20 0x21`) are accepted. -/
theorem c9_uint_total_witness :
    (2 : Nat) ≤ ([32, 33] : List Nat).length ∧
      ∃ v, uintParser 2 [32, 33] = Except.ok (([32, 33] : List Nat).drop 2, v) :=
  ⟨by decide, c9_uint_total.1 2 [32, 33] (by decide)⟩

/-! ### The "not available" sentinel and `to_nan` -/

/-- Modelled from the spec: the "not available" numeric sentinel of
`RecognitionSentinel` (§3, §6), a fixed ASCII byte literal.
`RecognitionSentinel` is declared in `src/dted.rs`, which is not part of
the provided sources; its 2-byte value "NA" is pinned by the doctest of
`to_nan` in src/parsers.rs:200 (`to_nan::<u32>(b"NA$$", 4)` matches the
sentinel and consumes all four bytes). -/
def NA_TAG : List Nat := [78, 65]

/-- `to_nan::<u32>` (src/parsers.rs:203-219): try the "NA" sentinel tag
first; on a match, `take(count - 2)` more bytes and return `None`; on a
recoverable tag error, fall back to `uint_parser(count)` applied to the
error's stored input (the original input) and wrap the value in `Some`;
any other error (`Err::Failure`) is returned unchanged.  The `usize`
subtraction `count - 2` wraps modulo `2^64` (release-mode semantics). -/
def to_nan (input : List Nat) (count : Nat) : IRes (Option Nat) :=
  match tagP NA_TAG input with
  | Except.ok (i1, _) =>
    match takeP ((count + 18446744073709551616 - 2) % 18446744073709551616) i1 with
    | Except.ok (i2, _) => Except.ok (i2, none)
    | Except.error e => Except.error e
  | Except.error e =>
    match e with
    | NErr.error pe =>
      match uintParser count pe.input with
      | Except.ok (i, x) => Except.ok (i, some x)
      | Except.error e2 => Except.error e2
    | NErr.failure pe => Except.error (NErr.failure pe)

/-- `to_nan` under overflow-checked (debug-profile) arithmetic: identical
to `to_nan` except that the `usize` subtraction `count - 2`
(src/parsers.rs:209) is checked — the result `none` models the
arithmetic-underflow panic raised when the sentinel matched and
`count < 2`. -/
def to_nanChecked (input : List Nat) (count : Nat) : Option (IRes (Option Nat)) :=
  match tagP NA_TAG input with
  | Except.ok (i1, _) =>
    if count < 2 then none
    else
      some (match takeP (count - 2) i1 with
        | Except.ok (i2, _) => Except.ok (i2, none)
        | Except.error e => Except.error e)
  | Except.error e =>
    some (match e with
      | NErr.error pe =>
        match uintParser count pe.input with
        | Except.ok (i, x) => Except.ok (i, some x)
        | Except.error e2 => Except.error e2
      | NErr.failure pe => Except.error (NErr.failure pe))

/-- `nan_parser` (src/parsers.rs:241-248): `to_nan` with the arguments
flipped into combinator shape. -/
def nanParser (count : Nat) (input : List Nat) : IRes (Option Nat) :=
  to_nan input count

theorem drop_append_ge {t r : List Nat} {n : Nat} (h : t.length ≤ n) :
    (t ++ r).drop n = r.drop (n - t.length) := by
  have hn : n = t.length + (n - t.length) := by omega
  rw [hn, List.drop_append]
  simp

/-! ### Claims C4 and C10 -/

/-- Claim C4: sentinel detection takes priority over numeric decoding.
For field width `count ≥ 2` (within `usize` range): when the input begins
with the "NA" sentinel and holds at least `count` bytes, `to_nan` consumes
exactly `count` bytes and returns `none` without numeric parsing;
otherwise it hands the full original input to `uint_parser(count)`,
wrapping a decoded value in `some` and propagating a decode failure
unchanged. -/
theorem c4_sentinel_precedence :
    ∀ (count : Nat) (input : List Nat), 2 ≤ count → count < 18446744073709551616 →
      (NA_TAG.isPrefixOf input = true → count ≤ input.length →
        to_nan input count = Except.ok (input.drop count, none)) ∧
      (¬ NA_TAG.isPrefixOf input = true →
        to_nan input count =
          match uintParser count input with
          | Except.ok (i, x) => Except.ok (i, some x)
          | Except.error e => Except.error e) := by
  intro count input h2 h64
  constructor
  · intro hpre hlen
    obtain ⟨r, hr⟩ := isPrefixOf_exists hpre
    subst hr
    have hsub : (count + 18446744073709551616 - 2) % 18446744073709551616 = count - 2 := by
      omega
    have hlen2 : count ≤ r.length + 1 + 1 := by
      simpa [NA_TAG] using hlen
    have hrlen : count - 2 ≤ r.length := by omega
    have htl : NA_TAG.length ≤ count := by
      simp only [NA_TAG, List.length_cons, List.length_nil]
      omega
    rw [to_nan, tagP_append NA_TAG r, hsub]
    simp only [takeP_of_le hrlen]
    rw [drop_append_ge htl]
    simp [NA_TAG]
  · intro hnp
    rw [to_nan, tagP_mismatch hnp]

/-- Witness for C4: the doctest field `"NA$$"` with width 4 decodes to
absent, consuming all four bytes. -/
theorem c4_sentinel_precedence_witness :
    ((2 : Nat) ≤ 4 ∧ (4 : Nat) < 18446744073709551616 ∧
      NA_TAG.isPrefixOf [78, 65, 36, 36] = true ∧
      (4 : Nat) ≤ ([78, 65, 36, 36] : List Nat).length) ∧
    to_nan [78, 65, 36, 36] 4 = Except.ok (([78, 65, 36, 36] : List Nat).drop 4, none) :=
  ⟨⟨by decide, by decide, by decide, by decide⟩,
    (c4_sentinel_precedence 4 [78, 65, 36, 36] (by decide) (by decide)).1
      (by decide) (by decide)⟩

/-- Claim C10: the sentinel branch of `to_nan` is well-defined only for
`count ≥ 2`.  When the input begins with the "NA" sentinel and `count < 2`
the `usize` subtraction `count - 2` underflows (under overflow-checked
arithmetic the code panics, modelled by `none`); for every `count ≥ 2`
with at least `count` bytes available, the branch consumes exactly `count`
bytes and returns the absent value. -/
theorem c10_count_underflow :
    ∀ (count : Nat) (input : List Nat),
      (NA_TAG.isPrefixOf input = true → count < 2 →
        to_nanChecked input count = none) ∧
      (2 ≤ count → count ≤ input.length → NA_TAG.isPrefixOf input = true →
        to_nanChecked input count = some (Except.ok (input.drop count, none))) := by
  intro count input
  constructor
  · intro hpre hlt
    obtain ⟨r, hr⟩ := isPrefixOf_exists hpre
    subst hr
    rw [to_nanChecked, tagP_append NA_TAG r]
    simp [hlt]
  · intro h2 hlen hpre
    obtain ⟨r, hr⟩ := isPrefixOf_exists hpre
    subst hr
    have hlen2 : count ≤ r.length + 1 + 1 := by
      simpa [NA_TAG] using hlen
    have hrlen : count - 2 ≤ r.length := by omega
    have htl : NA_TAG.length ≤ count := by
      simp only [NA_TAG, List.length_cons, List.length_nil]
      omega
    rw [to_nanChecked, tagP_append NA_TAG r]
    simp only [if_neg (by omega : ¬ count < 2), takeP_of_le hrlen]
    rw [drop_append_ge htl]
    simp [NA_TAG]

/-- Witness for C10: width 1 on an input starting with the sentinel
panics, while width 2 on the same bytes consumes both and returns absent. -/
theorem c10_count_underflow_witness :
    (NA_TAG.isPrefixOf [78, 65] = true ∧ (1 : Nat) < 2 ∧
      to_nanChecked [78, 65] 1 = none) ∧
    ((2 : Nat) ≤ 2 ∧ (2 : Nat) ≤ ([78, 65] : List Nat).length ∧
      to_nanChecked [78, 65] 2 = some (Except.ok (([78, 65] : List Nat).drop 2, none))) :=
  ⟨⟨by decide, by decide, (c10_count_underflow 1 [78, 65]).1 (by decide) (by decide)⟩,
    ⟨by decide, by decide,
      (c10_count_underflow 2 [78, 65]).2 (by decide) (by decide) (by decide)⟩⟩

/-! ### Angles and the UHL header -/

/-- Modelled from the spec: `Angle` (§3, in `src/primitives.rs`, not under
the provided sources) — non-negative degree/minute/second magnitudes plus
a negative-hemisphere flag; the seconds field is an `f64` in the source,
but every value reaching it here is a small decoded integer (cast
exactly), so it is kept as `Nat`. -/
structure Angle where
  deg : Nat
  minu : Nat
  sec : Nat
  neg : Bool
deriving DecidableEq, Repr

/-- Modelled from the spec: `Angle::new` is the plain constructor (§3:
immutable once constructed, sign carried solely by the flag). -/
def Angle.new (deg minu sec : Nat) (neg : Bool) : Angle :=
  ⟨deg, minu, sec, neg⟩

/-- Modelled from the spec: `AxisElement<T>` (§3, `src/primitives.rs`) —
a paired (latitude, longitude) value. -/
structure AxisElement (α : Type) where
  lat : α
  lon : α
deriving DecidableEq, Repr

/-- Modelled from the spec: `AxisElement::new(lat, lon)` pairs the
latitude first, as fixed by the doctest of `dted_uhl_parser`
(src/parsers.rs:331-336). -/
def AxisElement.new {α : Type} (lat lon : α) : AxisElement α :=
  ⟨lat, lon⟩

/-- `RawDTEDHeader` (declared in `src/dted.rs`; field set and meaning as
used at src/parsers.rs:373-381 and shown in the doctest). -/
structure RawDTEDHeader where
  origin : AxisElement Angle
  interval_secs_x_10 : AxisElement Nat
  accuracy : Option Nat
  count : AxisElement Nat
deriving DecidableEq, Repr

/-- The optional hemisphere parser of `to_angle` (src/parsers.rs:147-152):
`opt(alt((map(tag "N", false), map(tag "S", true), map(tag "E", false),
map(tag "W", true))))`.  `alt` tries each tag in order on the same input
(each `tag` can only raise a recoverable `Err::Error`, which `alt` eats),
and `opt` converts a final recoverable error into `none`. -/
def hemiOpt (input : List Nat) : IRes (Option Bool) :=
  match tagP [78] input with
  | Except.ok (r, _) => Except.ok (r, some false)
  | Except.error _ =>
    match tagP [83] input with
    | Except.ok (r, _) => Except.ok (r, some true)
    | Except.error _ =>
      match tagP [69] input with
      | Except.ok (r, _) => Except.ok (r, some false)
      | Except.error _ =>
        match tagP [87] input with
        | Except.ok (r, _) => Except.ok (r, some true)
        | Except.error _ => Except.ok (input, none)

/-- `to_angle` (src/parsers.rs:137-158): three width-parameterised decimal
fields then the optional hemisphere character;
`Angle::new(deg as u16, min as u8, sec as f64, sign.unwrap_or(false))` —
the `u32 → u16` / `u32 → u8` casts truncate, hence the `%`. -/
def to_angle (input : List Nat) (numDeg numMin numSec : Nat) : IRes Angle :=
  pbind (uintParserWithDefault numDeg 0 input) fun i1 deg =>
  pbind (uintParserWithDefault numMin 0 i1) fun i2 minu =>
  pbind (uintParserWithDefault numSec 0 i2) fun i3 sec =>
  pbind (hemiOpt i3) fun i4 sign =>
  Except.ok (i4, Angle.new (deg % 65536) (minu % 256) sec (sign.getD false))

/-- `angle_parser` (src/parsers.rs:176-182). -/
def angleParser (numDeg numMin numSec : Nat) (input : List Nat) : IRes Angle :=
  to_angle input numDeg numMin numSec

/-- Modelled from the spec: the header recognition tag of
`RecognitionSentinel` (§3 allows "fixed 3-byte (or 4-byte) ASCII tags";
the constant itself lives in `src/dted.rs`, outside the provided
sources).  Its value is pinned to the four bytes "UHL1" by the doctest of
`dted_uhl_parser` (src/parsers.rs:331-336), whose input
`b"UHL11234556E…"` only parses to the documented header when the tag
consumes four bytes. -/
def UHL_TAG : List Nat := [85, 72, 76, 49]

/-- `dted_uhl_parser` (src/parsers.rs:338-382): tag check, then the fixed
tuple of fields, then assembly of `RawDTEDHeader` (latitude/longitude are
parsed longitude-first and paired by `AxisElement::new(lat, lon)`). -/
def dtedUhlParser (input : List Nat) : IRes RawDTEDHeader :=
  pbind (tagP UHL_TAG input) fun i0 _ =>
  pbind (angleParser 3 2 2 i0) fun i1 lonOrigin =>
  pbind (angleParser 3 2 2 i1) fun i2 latOrigin =>
  pbind (uintParser 4 i2) fun i3 lonInterval =>
  pbind (uintParser 4 i3) fun i4 latInterval =>
  pbind (nanParser 4 i4) fun i5 accuracy =>
  pbind (takeP 15 i5) fun i6 _ =>
  pbind (uintParser 4 i6) fun i7 lonCount =>
  pbind (uintParser 4 i7) fun i8 latCount =>
  pbind (takeP 25 i8) fun i9 _ =>
  Except.ok (i9,
    { origin := AxisElement.new latOrigin lonOrigin,
      interval_secs_x_10 := AxisElement.new latInterval lonInterval,
      accuracy := accuracy,
      count := AxisElement.new latCount lonCount })

theorem pbind_ok {α β : Type} (i : List Nat) (a : α) (f : List Nat → α → IRes β) :
    pbind (Except.ok (i, a)) f = f i a := rfl

theorem pbind_err {α β : Type} (e : NErr) (f : List Nat → α → IRes β) :
    pbind (Except.error e) f = Except.error e := rfl

/-- The sign flag produced by a hemisphere character: true for S/W. -/
def hemiNeg (c : Nat) : Bool := c == 83 || c == 87

theorem tagP_cons_eq (c : Nat) (rest : List Nat) :
    tagP [c] (c :: rest) = Except.ok (rest, [c]) := by
  have hc : c :: rest = [c] ++ rest := rfl
  rw [hc, tagP_append]

theorem tagP_cons_ne {c b : Nat} (rest : List Nat) (h : c ≠ b) :
    tagP [c] (b :: rest) = Except.error (NErr.error ⟨b :: rest, ErrKind.tagK⟩) := by
  apply tagP_mismatch
  simp only [List.isPrefixOf, Bool.and_eq_true, beq_iff_eq, and_true]
  exact h

theorem hemiOpt_char {h : Nat} (rest : List Nat)
    (hh : h = 78 ∨ h = 83 ∨ h = 69 ∨ h = 87) :
    hemiOpt (h :: rest) = Except.ok (rest, some (hemiNeg h)) := by
  rcases hh with rfl | rfl | rfl | rfl
  · simp [hemiOpt, tagP_cons_eq, hemiNeg]
  · simp [hemiOpt, tagP_cons_eq, tagP_cons_ne rest (by omega : (78 : Nat) ≠ 83), hemiNeg]
  · simp [hemiOpt, tagP_cons_eq, tagP_cons_ne rest (by omega : (78 : Nat) ≠ 69),
      tagP_cons_ne rest (by omega : (83 : Nat) ≠ 69), hemiNeg]
  · simp [hemiOpt, tagP_cons_eq, tagP_cons_ne rest (by omega : (78 : Nat) ≠ 87),
      tagP_cons_ne rest (by omega : (83 : Nat) ≠ 87),
      tagP_cons_ne rest (by omega : (69 : Nat) ≠ 87), hemiNeg]

theorem uintParserWithDefault_of_pos {count : Nat} (d : Nat) (input : List Nat)
    (h : count ≠ 0) : uintParserWithDefault count d input = uintParser count input := by
  cases count with
  | zero => exact absurd rfl h
  | succ n => rfl

theorem to_angle_digits {d m s : List Nat} {h : Nat} (rest : List Nat)
    (hd : IsDigits d) (hdl : d.length = 3)
    (hm : IsDigits m) (hml : m.length = 2)
    (hs : IsDigits s) (hsl : s.length = 2)
    (hh : h = 78 ∨ h = 83 ∨ h = 69 ∨ h = 87) :
    to_angle (d ++ (m ++ (s ++ (h :: rest)))) 3 2 2 =
      Except.ok (rest, Angle.new (decVal d) (decVal m) (decVal s) (hemiNeg h)) := by
  have hdv : decVal d % 65536 = decVal d := by
    have hlt := decVal_lt d hd (by omega)
    rw [hdl] at hlt
    exact Nat.mod_eq_of_lt (by norm_num at hlt ⊢; omega)
  have hmv : decVal m % 256 = decVal m := by
    have hlt := decVal_lt m hm (by omega)
    rw [hml] at hlt
    exact Nat.mod_eq_of_lt (by norm_num at hlt ⊢; omega)
  rw [to_angle, uintParserWithDefault_of_pos 0 _ (by omega),
    uintParser_digits _ hdl hd (by omega)]
  simp only [pbind_ok]
  rw [uintParserWithDefault_of_pos 0 _ (by omega),
    uintParser_digits _ hml hm (by omega)]
  simp only [pbind_ok]
  rw [uintParserWithDefault_of_pos 0 _ (by omega),
    uintParser_digits _ hsl hs (by omega)]
  simp only [pbind_ok]
  rw [hemiOpt_char rest hh]
  simp only [pbind_ok, Option.getD_some, hdv, hmv]

theorem nan_digits {a : List Nat} (r : List Nat) (hd : IsDigits a)
    (hl : a.length = 4) :
    nanParser 4 (a ++ r) = Except.ok (r, some (decVal a)) := by
  have hnp : ¬ NA_TAG.isPrefixOf (a ++ r) = true := by
    cases a with
    | nil => simp at hl
    | cons b a' =>
      have hb := hd b (List.mem_cons_self b a')
      simp only [NA_TAG, List.cons_append, List.isPrefixOf, Bool.and_eq_true, beq_iff_eq]
      intro hc
      obtain ⟨h1, _⟩ := hc
      omega
  rw [nanParser, to_nan, tagP_mismatch hnp]
  simp [uintParser_digits r hl hd (by omega : (4 : Nat) ≤ 9)]

/-! ### Claim C3 -/

/-- The doctest input of `dted_uhl_parser` (src/parsers.rs:331):
`b"UHL11234556E8901234W123456789012UUUXXXXXXXXXXXX123445670XXX…X"`. -/
def uhlDocBytes : List Nat :=
  [85, 72, 76, 49,
   49, 50, 51, 52, 53, 53, 54, 69,
   56, 57, 48, 49, 50, 51, 52, 87,
   49, 50, 51, 52, 53, 54, 55, 56, 57, 48, 49, 50,
   85, 85, 85] ++ List.replicate 12 88 ++
  [49, 50, 51, 52, 52, 53, 54, 55, 48] ++ List.replicate 24 88

/-- The header the doctest expects for `uhlDocBytes`. -/
def uhlDocHeader : RawDTEDHeader :=
  { origin := { lat := ⟨890, 12, 34, true⟩, lon := ⟨123, 45, 56, false⟩ },
    interval_secs_x_10 := { lat := 5678, lon := 1234 },
    accuracy := some 9012,
    count := { lat := 4567, lon := 1234 } }

/-- `uhlDocBytes` with the fourth header byte changed from `'1'` to `'2'`:
it still begins with the three ASCII bytes "UHL". -/
def uhlBadBytes : List Nat := [85, 72, 76, 50] ++ uhlDocBytes.drop 4

/-- Claim C3 counterexample: the recognition tag validated by
`dted_uhl_parser` is not 3 bytes.  The doctest input (which begins with
the 4-byte tag "UHL1") parses, while an input beginning with the 3-byte
ASCII tag "UHL" but not with "UHL1" is rejected at the tag check — under
the claim, tag validation ought to pass there. -/
theorem c3_counterexample :
    dtedUhlParser uhlDocBytes = Except.ok ([], uhlDocHeader) ∧
    ([85, 72, 76] : List Nat).isPrefixOf uhlBadBytes = true ∧
    dtedUhlParser uhlBadBytes =
      Except.error (NErr.error ⟨uhlBadBytes, ErrKind.tagK⟩) :=
  ⟨rfl, rfl, rfl⟩

/-- Claim C3 (amended): `dted_uhl_parser` validates that the input begins
with the fixed 4-byte header recognition tag "UHL1" and fails immediately
— with a tag error at the very start of the input, before decoding any
field — when that 4-byte tag is absent. -/
theorem c3_uhl_tag :
    ∀ input : List Nat, ¬ UHL_TAG.isPrefixOf input = true →
      dtedUhlParser input = Except.error (NErr.error ⟨input, ErrKind.tagK⟩) := by
  intro input h
  rw [dtedUhlParser, tagP_mismatch h]
  rfl

/-- Witness for the amended C3 at a concrete non-"UHL1" input. -/
theorem c3_uhl_tag_witness :
    ¬ UHL_TAG.isPrefixOf [88, 88, 88, 88] = true ∧
      dtedUhlParser [88, 88, 88, 88] =
        Except.error (NErr.error ⟨[88, 88, 88, 88], ErrKind.tagK⟩) :=
  ⟨by decide, c3_uhl_tag [88, 88, 88, 88] (by decide)⟩

/-! ### Claim C7 -/

/-- Field-by-field characterisation of `dted_uhl_parser` on a fully
well-formed header layout (used both for the layout claim and to discharge
concrete header parses without deep kernel evaluation). -/
theorem uhl_layout :
    ∀ (lonD lonM lonS latD latM latS i1 i2 acc c1 c2 w15 w25 rest : List Nat)
      (lonH latH : Nat),
      IsDigits lonD → lonD.length = 3 → IsDigits lonM → lonM.length = 2 →
      IsDigits lonS → lonS.length = 2 →
      (lonH = 78 ∨ lonH = 83 ∨ lonH = 69 ∨ lonH = 87) →
      IsDigits latD → latD.length = 3 → IsDigits latM → latM.length = 2 →
      IsDigits latS → latS.length = 2 →
      (latH = 78 ∨ latH = 83 ∨ latH = 69 ∨ latH = 87) →
      IsDigits i1 → i1.length = 4 → IsDigits i2 → i2.length = 4 →
      IsDigits acc → acc.length = 4 →
      IsDigits c1 → c1.length = 4 → IsDigits c2 → c2.length = 4 →
      w15.length = 15 → w25.length = 25 →
      dtedUhlParser (UHL_TAG ++ lonD ++ lonM ++ lonS ++ [lonH] ++
          latD ++ latM ++ latS ++ [latH] ++ i1 ++ i2 ++ acc ++ w15 ++
          c1 ++ c2 ++ w25 ++ rest) =
        Except.ok (rest,
          { origin := AxisElement.new
              (Angle.new (decVal latD) (decVal latM) (decVal latS) (hemiNeg latH))
              (Angle.new (decVal lonD) (decVal lonM) (decVal lonS) (hemiNeg lonH)),
            interval_secs_x_10 := AxisElement.new (decVal i2) (decVal i1),
            accuracy := some (decVal acc),
            count := AxisElement.new (decVal c2) (decVal c1) }) := by
  intro lonD lonM lonS latD latM latS i1 i2 acc c1 c2 w15 w25 rest lonH latH
  intro hlonD hlonDl hlonM hlonMl hlonS hlonSl hlonH
  intro hlatD hlatDl hlatM hlatMl hlatS hlatSl hlatH
  intro hi1 hi1l hi2 hi2l hacc haccl hc1 hc1l hc2 hc2l hw15 hw25
  simp only [List.append_assoc, List.singleton_append, List.cons_append, List.nil_append]
  rw [dtedUhlParser, tagP_append UHL_TAG _]
  simp only [pbind_ok]
  rw [angleParser, to_angle_digits _ hlonD hlonDl hlonM hlonMl hlonS hlonSl hlonH]
  simp only [pbind_ok]
  rw [angleParser, to_angle_digits _ hlatD hlatDl hlatM hlatMl hlatS hlatSl hlatH]
  simp only [pbind_ok]
  rw [uintParser_digits _ hi1l hi1 (by omega)]
  simp only [pbind_ok]
  rw [uintParser_digits _ hi2l hi2 (by omega)]
  simp only [pbind_ok]
  rw [nan_digits _ hacc haccl]
  simp only [pbind_ok]
  rw [takeP_append _ hw15]
  simp only [pbind_ok]
  rw [uintParser_digits _ hc1l hc1 (by omega)]
  simp only [pbind_ok]
  rw [uintParser_digits _ hc2l hc2 (by omega)]
  simp only [pbind_ok]
  rw [takeP_append _ hw25]
  simp only [pbind_ok]

/-- Claim C7: after the header tag, `dted_uhl_parser` decodes, in order —
longitude origin angle (3/2/2-digit deg/min/sec plus hemisphere
character), latitude origin angle (same widths), 4-digit longitude
interval, 4-digit latitude interval, 4-byte sentinel-aware accuracy,
15 discarded bytes, 4-digit longitude count, 4-digit latitude count,
25 discarded bytes — and pairs the latitude/longitude values into the
`AxisElement` fields of the returned header. -/
theorem c7_uhl_layout :
    ∀ (lonD lonM lonS latD latM latS i1 i2 acc c1 c2 w15 w25 rest : List Nat)
      (lonH latH : Nat),
      IsDigits lonD → lonD.length = 3 → IsDigits lonM → lonM.length = 2 →
      IsDigits lonS → lonS.length = 2 →
      (lonH = 78 ∨ lonH = 83 ∨ lonH = 69 ∨ lonH = 87) →
      IsDigits latD → latD.length = 3 → IsDigits latM → latM.length = 2 →
      IsDigits latS → latS.length = 2 →
      (latH = 78 ∨ latH = 83 ∨ latH = 69 ∨ latH = 87) →
      IsDigits i1 → i1.length = 4 → IsDigits i2 → i2.length = 4 →
      IsDigits acc → acc.length = 4 →
      IsDigits c1 → c1.length = 4 → IsDigits c2 → c2.length = 4 →
      w15.length = 15 → w25.length = 25 →
      dtedUhlParser (UHL_TAG ++ lonD ++ lonM ++ lonS ++ [lonH] ++
          latD ++ latM ++ latS ++ [latH] ++ i1 ++ i2 ++ acc ++ w15 ++
          c1 ++ c2 ++ w25 ++ rest) =
        Except.ok (rest,
          { origin := AxisElement.new
              (Angle.new (decVal latD) (decVal latM) (decVal latS) (hemiNeg latH))
              (Angle.new (decVal lonD) (decVal lonM) (decVal lonS) (hemiNeg lonH)),
            interval_secs_x_10 := AxisElement.new (decVal i2) (decVal i1),
            accuracy := some (decVal acc),
            count := AxisElement.new (decVal c2) (decVal c1) }) := uhl_layout

/-- Witness for C7: the doctest layout, with every field concrete. -/
theorem c7_uhl_layout_witness :
    dtedUhlParser (UHL_TAG ++ [49, 50, 51] ++ [52, 53] ++ [53, 54] ++ [69] ++
        [56, 57, 48] ++ [49, 50] ++ [51, 52] ++ [87] ++
        [49, 50, 51, 52] ++ [53, 54, 55, 56] ++ [57, 48, 49, 50] ++
        ([85, 85, 85] ++ List.replicate 12 88) ++
        [49, 50, 51, 52] ++ [52, 53, 54, 55] ++ ([48] ++ List.replicate 24 88) ++ []) =
      Except.ok ([],
        { origin := AxisElement.new
            (Angle.new (decVal [56, 57, 48]) (decVal [49, 50]) (decVal [51, 52]) (hemiNeg 87))
            (Angle.new (decVal [49, 50, 51]) (decVal [52, 53]) (decVal [53, 54]) (hemiNeg 69)),
          interval_secs_x_10 := AxisElement.new (decVal [53, 54, 55, 56]) (decVal [49, 50, 51, 52]),
          accuracy := some (decVal [57, 48, 49, 50]),
          count := AxisElement.new (decVal [52, 53, 54, 55]) (decVal [49, 50, 51, 52]) }) :=
  c7_uhl_layout [49, 50, 51] [52, 53] [53, 54] [56, 57, 48] [49, 50] [51, 52]
    [49, 50, 51, 52] [53, 54, 55, 56] [57, 48, 49, 50] [49, 50, 51, 52] [52, 53, 54, 55]
    ([85, 85, 85] ++ List.replicate 12 88) ([48] ++ List.replicate 24 88) [] 69 87
    (by decide) (by decide) (by decide) (by decide) (by decide) (by decide)
    (by decide) (by decide) (by decide) (by decide) (by decide) (by decide)
    (by decide) (by decide) (by decide) (by decide) (by decide) (by decide)
    (by decide) (by decide) (by decide) (by decide) (by decide) (by decide)
    (by decide) (by decide)

/-! ### Data records and the file parser -/

/-- Modelled from the spec: the data-record recognition sentinel of
`RecognitionSentinel` (§3/§4.6; "data-record tag length per format", §6),
declared in `src/dted.rs` outside the provided sources.  The DTED format's
data-record recognition sentinel is the single byte `0xAA` (170). -/
def DATA_TAG : List Nat := [170]

/-- Modelled from the spec: `DT2_DSI_RECORD_LENGTH` (§4.7, a fixed-size
opaque block "of lengths defined by the format specification"), declared
in `src/dted.rs`; the DTED DSI record is 648 bytes. -/
def DT2_DSI_RECORD_LENGTH : Nat := 648

/-- Modelled from the spec: `DT2_ACC_RECORD_LENGTH` (§4.7), declared in
`src/dted.rs`; the DTED ACC record is 2700 bytes. -/
def DT2_ACC_RECORD_LENGTH : Nat := 2700

/-- `RawDTEDRecord` (declared in `src/dted.rs`; fields as assembled at
src/parsers.rs:432-440; `blk_count` is a `u32` in the source, always
below `2^24` by construction). -/
structure RawDTEDRecord where
  blk_count : Nat
  lon_count : Nat
  lat_count : Nat
  elevations : List Int
deriving DecidableEq, Repr

/-- `RawDTEDFile` (declared in `src/dted.rs`; fields as assembled at
src/parsers.rs:405-413; the DSI/ACC payload type is opaque here — the
parser only ever stores `None`). -/
structure RawDTEDFile where
  header : RawDTEDHeader
  data : List RawDTEDRecord
  dsi_record : Option (List Nat)
  acc_record : Option (List Nat)
deriving DecidableEq, Repr

/-- `nom::multi::count p n`: runs `p` exactly `n` times, collecting the
values in order.  On a recoverable sub-error `e`, nom returns
`E::append(i, ErrorKind::Count, e)`, and `append` for `nom::error::Error`
returns `e` unchanged; an `Err::Failure` is returned directly — so every
sub-failure propagates unchanged. -/
def countP {α : Type} (p : List Nat → IRes α) : Nat → List Nat → IRes (List α)
  | 0, input => Except.ok (input, [])
  | n + 1, input =>
    pbind (p input) fun i1 x =>
    pbind (countP p n i1) fun i2 xs =>
    Except.ok (i2, x :: xs)

/-- `parse_dted_record` (src/parsers.rs:417-441): data sentinel, one block
byte (`block_byte0[0]` is safe — `take(1)` yields exactly one byte,
modelled with `getD`), three big-endian `u16` fields, `line_len`
signed-magnitude samples, and a 4-byte checksum that is consumed but not
validated.  `blk_count = block_byte0[0] as u32 * 0x10000 + block_rest`
cannot overflow `u32` (at most `255 * 65536 + 65535`). -/
def parse_dted_record (input : List Nat) (line_len : Nat) : IRes RawDTEDRecord :=
  pbind (tagP DATA_TAG input) fun i0 _ =>
  pbind (takeP 1 i0) fun i1 blockByte0 =>
  pbind (beU16 i1) fun i2 blockRest =>
  pbind (beU16 i2) fun i3 lonCount =>
  pbind (beU16 i3) fun i4 latCount =>
  pbind (countP signedMagParser line_len i4) fun i5 elevations =>
  pbind (takeP 4 i5) fun i6 _ =>
  Except.ok (i6,
    { blk_count := blockByte0.getD 0 0 * 65536 + blockRest,
      lon_count := lonCount,
      lat_count := latCount,
      elevations := elevations })

/-- `dted_file_parser` (src/parsers.rs:384-414): header, the two skipped
fixed-size DSI/ACC blocks, then exactly `header.count.lon` records of
`header.count.lat` samples each; the DSI/ACC fields of the result are
left `None`. -/
def dtedFileParser (input : List Nat) : IRes RawDTEDFile :=
  pbind (dtedUhlParser input) fun i0 header =>
  pbind (takeP DT2_DSI_RECORD_LENGTH i0) fun i1 _ =>
  pbind (takeP DT2_ACC_RECORD_LENGTH i1) fun i2 _ =>
  pbind (countP (fun i => parse_dted_record i header.count.lat) header.count.lon i2)
    fun i3 records =>
  Except.ok (i3,
    { header := header, data := records, dsi_record := none, acc_record := none })

/-! ### Inversion lemmas -/

theorem pbind_ok_inv {α β : Type} {r : IRes α} {f : List Nat → α → IRes β}
    {z : List Nat × β} (h : pbind r f = Except.ok z) :
    ∃ i a, r = Except.ok (i, a) ∧ f i a = Except.ok z := by
  cases r with
  | ok p =>
    obtain ⟨i, a⟩ := p
    exact ⟨i, a, rfl, h⟩
  | error e => exact absurd h (by simp [pbind])

theorem tagP_ok_inv {t input i : List Nat} {v : List Nat}
    (h : tagP t input = Except.ok (i, v)) : input = t ++ i ∧ v = t := by
  by_cases hp : t.isPrefixOf input = true
  · obtain ⟨r, hr⟩ := isPrefixOf_exists hp
    subst hr
    rw [tagP_append] at h
    injection h with h'
    injection h' with h1 h2
    exact ⟨by rw [h1], h2.symm⟩
  · rw [tagP_mismatch hp] at h
    exact absurd h (by simp)

theorem takeP_ok_inv {n : Nat} {input i v : List Nat}
    (h : takeP n input = Except.ok (i, v)) :
    n ≤ input.length ∧ i = input.drop n ∧ v = input.take n := by
  by_cases hn : n ≤ input.length
  · rw [takeP_of_le hn] at h
    injection h with h'
    injection h' with h1 h2
    exact ⟨hn, h1.symm, h2.symm⟩
  · rw [takeP] at h
    rw [if_neg hn] at h
    exact absurd h (by simp)

theorem beU16_ok_inv {input i : List Nat} {v : Nat}
    (h : beU16 input = Except.ok (i, v)) :
    ∃ b0 b1, input = b0 :: b1 :: i ∧ v = b0 * 256 + b1 := by
  match input with
  | [] => exact absurd h (by simp [beU16])
  | [b] => exact absurd h (by simp [beU16])
  | b0 :: b1 :: rest =>
    rw [beU16] at h
    injection h with h'
    injection h' with h1 h2
    exact ⟨b0, b1, by rw [h1], h2.symm⟩

theorem countP_zero {α : Type} (p : List Nat → IRes α) (input : List Nat) :
    countP p 0 input = Except.ok (input, []) := rfl

theorem countP_succ {α : Type} (p : List Nat → IRes α) (n : Nat) (input : List Nat) :
    countP p (n + 1) input =
      pbind (p input) (fun i1 x =>
        pbind (countP p n i1) (fun i2 xs => Except.ok (i2, x :: xs))) := rfl

theorem countP_ok_length {α : Type} {p : List Nat → IRes α} :
    ∀ {n : Nat} {input r : List Nat} {xs : List α},
      countP p n input = Except.ok (r, xs) → xs.length = n := by
  intro n
  induction n with
  | zero =>
    intro input r xs h
    rw [countP_zero] at h
    injection h with h'
    injection h' with h1 h2
    rw [← h2]
    rfl
  | succ n ih =>
    intro input r xs h
    rw [countP_succ] at h
    obtain ⟨i1, x, hp, h⟩ := pbind_ok_inv h
    obtain ⟨i2, xs2, hc, h⟩ := pbind_ok_inv h
    injection h with h'
    injection h' with h1 h2
    rw [← h2]
    simp [ih hc]

theorem countP_ok_forall {α : Type} {p : List Nat → IRes α} {Q : α → Prop}
    (hq : ∀ i r x, p i = Except.ok (r, x) → Q x) :
    ∀ {n : Nat} {input r : List Nat} {xs : List α},
      countP p n input = Except.ok (r, xs) → ∀ x ∈ xs, Q x := by
  intro n
  induction n with
  | zero =>
    intro input r xs h
    rw [countP_zero] at h
    injection h with h'
    injection h' with h1 h2
    rw [← h2]
    intro x hx
    exact absurd hx (by simp)
  | succ n ih =>
    intro input r xs h
    rw [countP_succ] at h
    obtain ⟨i1, x, hp, h⟩ := pbind_ok_inv h
    obtain ⟨i2, xs2, hc, h⟩ := pbind_ok_inv h
    injection h with h'
    injection h' with h1 h2
    rw [← h2]
    intro y hy
    rcases List.mem_cons.mp hy with hy1 | hy2
    · exact hy1 ▸ hq input i1 x hp
    · exact ih hc y hy2

theorem parse_dted_record_elev_len {input r : List Nat} {n : Nat}
    {rec : RawDTEDRecord} (h : parse_dted_record input n = Except.ok (r, rec)) :
    rec.elevations.length = n := by
  rw [parse_dted_record] at h
  obtain ⟨i0, t0, h0, h⟩ := pbind_ok_inv h
  obtain ⟨i1, b0, h1, h⟩ := pbind_ok_inv h
  obtain ⟨i2, br, h2, h⟩ := pbind_ok_inv h
  obtain ⟨i3, lc, h3, h⟩ := pbind_ok_inv h
  obtain ⟨i4, tc, h4, h⟩ := pbind_ok_inv h
  obtain ⟨i5, elevs, h5, h⟩ := pbind_ok_inv h
  obtain ⟨i6, ck, h6, h⟩ := pbind_ok_inv h
  injection h with h'
  injection h' with hr hrec
  rw [← hrec]
  exact countP_ok_length h5

/-! ### Claim C8 -/

/-- Claim C8: on every successful record parse, `blk_count` is the 1-byte
high part (the byte right after the record sentinel) times `0x10000` plus
the 2-byte big-endian low part, and therefore fits in 24 bits. -/
theorem c8_blk_count :
    ∀ (input : List Nat) (n : Nat) (r : List Nat) (rec : RawDTEDRecord),
      (∀ b ∈ input, b < 256) →
      parse_dted_record input n = Except.ok (r, rec) →
      rec.blk_count =
        input.getD 1 0 * 65536 + (input.getD 2 0 * 256 + input.getD 3 0) ∧
      rec.blk_count ≤ 16777215 := by
  intro input n r rec hbytes h
  rw [parse_dted_record] at h
  obtain ⟨i0, t0, h0, hA⟩ := pbind_ok_inv h
  obtain ⟨i1, b0, h1, hB⟩ := pbind_ok_inv hA
  obtain ⟨i2, br, h2, hC⟩ := pbind_ok_inv hB
  obtain ⟨i3, lc, h3, hD⟩ := pbind_ok_inv hC
  obtain ⟨i4, tc, h4, hE⟩ := pbind_ok_inv hD
  obtain ⟨i5, elevs, h5, hF⟩ := pbind_ok_inv hE
  obtain ⟨i6, ck, h6, hfin⟩ := pbind_ok_inv hF
  injection hfin with hfin2
  injection hfin2 with hre hrec
  obtain ⟨hin, ht0⟩ := tagP_ok_inv h0
  obtain ⟨hlen1, hi1, hb0⟩ := takeP_ok_inv h1
  obtain ⟨c1, c2, hi1eq, hbr⟩ := beU16_ok_inv h2
  cases i0 with
  | nil => simp at hlen1
  | cons b rest0 =>
    have hi0 : input = 170 :: b :: rest0 := by
      rw [hin]
      simp [DATA_TAG]
    have hb0v : b0 = [b] := by
      rw [hb0]
      rfl
    have hrest0 : rest0 = c1 :: c2 :: i2 := by
      have hir : i1 = rest0 := by
        rw [hi1]
        rfl
      rw [← hir, hi1eq]
    have hbmem : b < 256 := hbytes b (by rw [hi0]; simp)
    have hc1mem : c1 < 256 := hbytes c1 (by rw [hi0, hrest0]; simp)
    have hc2mem : c2 < 256 := hbytes c2 (by rw [hi0, hrest0]; simp)
    constructor
    · rw [← hrec, hi0, hrest0]
      simp [List.getD, hb0v, hbr]
    · rw [← hrec]
      simp only [hb0v, hbr]
      have hg : ([b] : List Nat).getD 0 0 = b := rfl
      rw [hg]
      omega

/-- Witness for C8: a concrete 14-byte record with one elevation sample;
high part 5, low part 258, so `blk_count = 5 * 0x10000 + 258 = 327938`. -/
theorem c8_blk_count_witness :
    ({ blk_count := 327938, lon_count := 0, lat_count := 1,
       elevations := [7] } : RawDTEDRecord).blk_count =
      ([170, 5, 1, 2, 0, 0, 0, 1, 0, 7, 9, 9, 9, 9] : List Nat).getD 1 0 * 65536 +
        (([170, 5, 1, 2, 0, 0, 0, 1, 0, 7, 9, 9, 9, 9] : List Nat).getD 2 0 * 256 +
          ([170, 5, 1, 2, 0, 0, 0, 1, 0, 7, 9, 9, 9, 9] : List Nat).getD 3 0) ∧
    ({ blk_count := 327938, lon_count := 0, lat_count := 1,
       elevations := [7] } : RawDTEDRecord).blk_count ≤ 16777215 :=
  c8_blk_count [170, 5, 1, 2, 0, 0, 0, 1, 0, 7, 9, 9, 9, 9] 1 []
    { blk_count := 327938, lon_count := 0, lat_count := 1, elevations := [7] }
    (by decide) rfl

/-! ### Claim C6 -/

/-- Claim C6: `dted_file_parser` decodes the header, skips the two
fixed-size opaque DSI/ACC blocks (leaving the result's `dsi_record` and
`acc_record` empty), then decodes exactly `header.count.lon` records of
exactly `header.count.lat` elevation samples each; a zero longitude count
yields an empty record sequence, not a failure; and any sub-decoder
failure (header stage, or any record of the counting stage) aborts the
whole decode, propagating that failure unchanged with no partial result. -/
theorem c6_file_structure :
    (∀ (input r : List Nat) (f : RawDTEDFile),
      dtedFileParser input = Except.ok (r, f) →
        f.data.length = f.header.count.lon ∧
        (∀ rec ∈ f.data, rec.elevations.length = f.header.count.lat) ∧
        f.dsi_record = none ∧ f.acc_record = none) ∧
    (∀ (input rest : List Nat) (hd : RawDTEDHeader),
      dtedUhlParser input = Except.ok (rest, hd) → hd.count.lon = 0 →
      DT2_DSI_RECORD_LENGTH + DT2_ACC_RECORD_LENGTH ≤ rest.length →
      dtedFileParser input =
        Except.ok (rest.drop (DT2_DSI_RECORD_LENGTH + DT2_ACC_RECORD_LENGTH),
          { header := hd, data := [], dsi_record := none, acc_record := none })) ∧
    (∀ (input : List Nat) (e : NErr),
      dtedUhlParser input = Except.error e → dtedFileParser input = Except.error e) ∧
    (∀ (input rest : List Nat) (hd : RawDTEDHeader) (e : NErr),
      dtedUhlParser input = Except.ok (rest, hd) →
      DT2_DSI_RECORD_LENGTH + DT2_ACC_RECORD_LENGTH ≤ rest.length →
      countP (fun i => parse_dted_record i hd.count.lat) hd.count.lon
        (rest.drop (DT2_DSI_RECORD_LENGTH + DT2_ACC_RECORD_LENGTH)) =
          Except.error e →
      dtedFileParser input = Except.error e) := by
  refine ⟨?_, ?_, ?_, ?_⟩
  · intro input r f h
    rw [dtedFileParser] at h
    obtain ⟨i0, header, h0, hA⟩ := pbind_ok_inv h
    obtain ⟨i1, d1, h1, hB⟩ := pbind_ok_inv hA
    obtain ⟨i2, d2, h2, hC⟩ := pbind_ok_inv hB
    obtain ⟨i3, records, h3, hfin⟩ := pbind_ok_inv hC
    injection hfin with hfin2
    injection hfin2 with hre hf
    rw [← hf]
    refine ⟨countP_ok_length h3, ?_, rfl, rfl⟩
    intro rec hmem
    exact countP_ok_forall
      (fun i r2 x hx => parse_dted_record_elev_len hx) h3 rec hmem
  · intro input rest hd huhl hz hlen
    rw [dtedFileParser, huhl]
    simp only [pbind_ok]
    have hlen1 : DT2_DSI_RECORD_LENGTH ≤ rest.length := by omega
    rw [takeP_of_le hlen1]
    simp only [pbind_ok]
    have hlen2 : DT2_ACC_RECORD_LENGTH ≤ (rest.drop DT2_DSI_RECORD_LENGTH).length := by
      simp only [List.length_drop]
      omega
    rw [takeP_of_le hlen2]
    simp only [pbind_ok]
    rw [hz, countP_zero]
    simp only [pbind_ok]
    rw [List.drop_drop]
  · intro input e herr
    rw [dtedFileParser, herr]
    rfl
  · intro input rest hd e huhl hlen hcount
    rw [dtedFileParser, huhl]
    simp only [pbind_ok]
    have hlen1 : DT2_DSI_RECORD_LENGTH ≤ rest.length := by omega
    rw [takeP_of_le hlen1]
    simp only [pbind_ok]
    have hlen2 : DT2_ACC_RECORD_LENGTH ≤ (rest.drop DT2_DSI_RECORD_LENGTH).length := by
      simp only [List.length_drop]
      omega
    rw [takeP_of_le hlen2]
    simp only [pbind_ok]
    rw [List.drop_drop, hcount]
    rfl

/-- A full UHL header whose longitude point count field is "0000"
(latitude count "0001"), followed by exactly the 648 + 2700 opaque
DSI/ACC bytes and no record data. -/
def c6FileInput : List Nat :=
  UHL_TAG ++ [49, 50, 51] ++ [52, 53] ++ [53, 54] ++ [69] ++
    [56, 57, 48] ++ [49, 50] ++ [51, 52] ++ [87] ++
    [49, 50, 51, 52] ++ [53, 54, 55, 56] ++ [57, 48, 49, 50] ++
    List.replicate 15 88 ++ [48, 48, 48, 48] ++ [48, 48, 48, 49] ++
    List.replicate 25 88 ++ List.replicate 3348 0

/-- The header decoded from the UHL part of `c6FileInput`. -/
def c6Header : RawDTEDHeader :=
  { origin := { lat := ⟨890, 12, 34, true⟩, lon := ⟨123, 45, 56, false⟩ },
    interval_secs_x_10 := { lat := 5678, lon := 1234 },
    accuracy := some 9012,
    count := { lat := 1, lon := 0 } }

/-- Witness for C6: the zero-longitude-count file decodes to an empty
record sequence rather than failing. -/
theorem c6_file_structure_witness :
    dtedFileParser c6FileInput =
      Except.ok ((List.replicate 3348 0).drop
          (DT2_DSI_RECORD_LENGTH + DT2_ACC_RECORD_LENGTH),
        { header := c6Header, data := [], dsi_record := none, acc_record := none }) :=
  c6_file_structure.2.1 c6FileInput (List.replicate 3348 0) c6Header
    (uhl_layout [49, 50, 51] [52, 53] [53, 54] [56, 57, 48] [49, 50] [51, 52]
      [49, 50, 51, 52] [53, 54, 55, 56] [57, 48, 49, 50] [48, 48, 48, 48] [48, 48, 48, 49]
      (List.replicate 15 88) (List.replicate 25 88) (List.replicate 3348 0) 69 87
      (by decide) (by decide) (by decide) (by decide) (by decide) (by decide)
      (by decide) (by decide) (by decide) (by decide) (by decide) (by decide)
      (by decide) (by decide) (by decide) (by decide) (by decide) (by decide)
      (by decide) (by decide) (by decide) (by decide) (by decide) (by decide)
      (by decide) (by decide))
    rfl
    (by norm_num [DT2_DSI_RECORD_LENGTH, DT2_ACC_RECORD_LENGTH])
